import Mathlib

/-!
Verification development for the Sygma proxy admission pipeline
(sygma_proxy/src/main.rs).  Strings are embedded as lists of characters,
machine time as a natural-number timestamp, and the per-connection handler
as a pure function returning the single response it writes together with
the cache state and instrumentation flags recording which checks ran.
-/

namespace Sygma

/-- Capacity configured on TRUST_CACHE in src (max_capacity(10_000)). -/
def cacheCapacity : Nat := 10000

/-- Time-to-live configured on TRUST_CACHE in src (time_to_live 300 seconds). -/
def cacheTTL : Nat := 300

/-- The recognized valid-credential lead string from src:
the token must COMECE com AUTH_SYGMA_VALID_. -/
def authSygmaValid : List Char := "AUTH_SYGMA_VALID_".toList

/-- Decides whether the list s starts with the pattern p
(embedding of Rust str starts_with on the token). -/
def strStartsWith (s p : List Char) : Bool :=
  match s, p with
  | _, [] => true
  | [], _ :: _ => false
  | c :: cs, q :: qs => c == q && strStartsWith cs qs

/-- One resident record of the trust cache: token, stored validity and
the timestamp at which it was inserted. -/
structure CacheEntry where
  token : List Char
  value : Bool
  insertedAt : Nat
  deriving DecidableEq

/-- Modelled from the spec: the TrustCache store itself is the external
moka TinyLFU library, of which src only fixes the configuration
(capacity 10000, TTL 300 s); following section 4.1 the store is a
capacity- and time-bounded map from token to decision. -/
abbrev TrustCache := List CacheEntry

/-- Modelled from the spec: a lookup returns the stored validity only
while the entry is younger than the TTL; an entry older than the TTL is
treated as absent. -/
def cacheGet (c : TrustCache) (now : Nat) (token : List Char) : Option Bool :=
  match c.find? (fun e => e.token == token) with
  | some e => if now < e.insertedAt + cacheTTL then some e.value else none
  | none => none

/-- Modelled from the spec: an insert drops the expired entries and any
older record for the same token, evicts (approximately least valuable
first) when the store is at capacity, and then adds the fresh record. -/
def cacheInsert (c : TrustCache) (now : Nat) (token : List Char) (value : Bool) :
    TrustCache :=
  let pruned := c.filter (fun e =>
    decide (now < e.insertedAt + cacheTTL) && !(e.token == token))
  let room := if pruned.length < cacheCapacity then pruned
              else pruned.take (cacheCapacity - 1)
  ⟨token, value, now⟩ :: room

/-- A cache operation, for stating invariants over arbitrary histories. -/
inductive CacheOp where
  | get (now : Nat) (token : List Char)
  | insert (now : Nat) (token : List Char) (value : Bool)

/-- Effect of one cache operation on the store (a lookup does not change
the resident set in this model). -/
def applyOp (c : TrustCache) : CacheOp → TrustCache
  | .get _ _ => c
  | .insert now t v => cacheInsert c now t v

/-- The store reached from the empty cache after a history of operations
(the cache is rebuilt empty on every process start). -/
def runOps (ops : List CacheOp) : TrustCache := ops.foldl applyOp []

/-- Result of one call of verify_zero_trust_token: the boolean outcome,
the cache state after the call, and how many times the slow path
(the structural lead check) ran during the call. -/
structure VerifyResult where
  result : Bool
  cache : TrustCache
  slowPathRuns : Nat
  deriving DecidableEq

/-- Embedding of verify_zero_trust_token from src lines 57 to 72: a cache
hit returns the stored validity with no further work; on a miss the slow
path tests the valid-credential lead, and only a positive outcome is
inserted into the cache. -/
def verify_zero_trust_token (c : TrustCache) (now : Nat) (token : List Char) :
    VerifyResult :=
  match cacheGet c now token with
  | some isValid => ⟨isValid, c, 0⟩
  | none =>
    let isValid := strStartsWith token authSygmaValid
    if isValid then ⟨true, cacheInsert c now token true, 1⟩
    else ⟨false, c, 1⟩

/-- The four fixed response templates from src. -/
def resp400 : List Char := "400 ERROR: Invalid Sygma Request Format".toList

/-- Response written on a failed zero-trust check. -/
def resp403 : List Char := "403 ACCESS DENIED: Zero Trust Violation".toList

/-- Response written when the kernel health check fails. -/
def resp503 : List Char := "503 SERVICE UNAVAILABLE: Kernel T1 Offline".toList

/-- Accepted response with the payload substituted into the template. -/
def resp200 (payload : List Char) : List Char :=
  "200 OK: Payload ".toList ++ payload ++
    " submetido ao Kernel T1. Aguardando Settlement.".toList

/-- Embedding of Rust split on the pipe character: split never returns an
empty list, and an input without a pipe yields a single field. -/
def splitPipe : List Char → List (List Char)
  | [] => [[]]
  | c :: rest =>
    if c == '|' then [] :: splitPipe rest
    else
      match splitPipe rest with
      | [] => [[c]]
      | f :: r => (c :: f) :: r

/-- Whitespace test used by trim. -/
def isWs (c : Char) : Bool :=
  c == ' ' || c == '\t' || c == '\n' || c == '\r' || c == '\x0b' || c == '\x0c'

/-- Embedding of Rust str trim: remove whitespace from both ends. -/
def trimChars (s : List Char) : List Char :=
  ((s.dropWhile isWs).reverse.dropWhile isWs).reverse

/-- Outcome of one per-connection pipeline run from src lines 75 to 110:
the single response written, the cache after the run, and flags recording
whether the zero-trust check and the kernel health probe were invoked. -/
structure PipelineResult where
  response : List Char
  cache : TrustCache
  verifyInvoked : Bool
  healthProbeInvoked : Bool
  slowPathRuns : Nat
  deriving DecidableEq

/-- The auth token of a request: the trimmed first field of the split
(auth_token in src line 84). -/
def authTokenOf (request : List Char) : List Char :=
  trimChars ((splitPipe request).getD 0 [])

/-- The payload of a request: the trimmed second field of the split
(kernel_payload in src line 85). -/
def payloadOf (request : List Char) : List Char :=
  trimChars ((splitPipe request).getD 1 [])

/-- Embedding of handle_connection from src: split the request on the
pipe, answer 400 on fewer than two fields, run the zero-trust check on
the trimmed first field, answer 403 on failure, then run the health probe
(its boolean outcome is the parameter kernelUp), answer 503 on failure,
and otherwise answer 200 with the trimmed second field as payload. -/
def handle_connection (c : TrustCache) (now : Nat) (kernelUp : Bool)
    (request : List Char) : PipelineResult :=
  if (splitPipe request).length < 2 then
    ⟨resp400, c, false, false, 0⟩
  else if (verify_zero_trust_token c now (authTokenOf request)).result = false then
    ⟨resp403, (verify_zero_trust_token c now (authTokenOf request)).cache,
      true, false, (verify_zero_trust_token c now (authTokenOf request)).slowPathRuns⟩
  else if kernelUp = false then
    ⟨resp503, (verify_zero_trust_token c now (authTokenOf request)).cache,
      true, true, (verify_zero_trust_token c now (authTokenOf request)).slowPathRuns⟩
  else
    ⟨resp200 (payloadOf request),
      (verify_zero_trust_token c now (authTokenOf request)).cache,
      true, true, (verify_zero_trust_token c now (authTokenOf request)).slowPathRuns⟩

/-- The Unicode replacement character emitted by lossy decoding. -/
def replChar : Char := Char.ofNat 0xFFFD

/-- Decides whether a byte is a UTF-8 continuation byte. -/
def contByte (b : Nat) : Bool := decide (0x80 ≤ b) && decide (b < 0xC0)

/-- Range restriction on the second byte of a three-byte sequence
(excludes overlong encodings and surrogates). -/
def snd3ok (b b2 : Nat) : Bool :=
  if b == 0xE0 then decide (0xA0 ≤ b2) && decide (b2 < 0xC0)
  else if b == 0xED then decide (0x80 ≤ b2) && decide (b2 < 0xA0)
  else contByte b2

/-- Range restriction on the second byte of a four-byte sequence
(excludes overlong encodings and values above U+10FFFF). -/
def snd4ok (b b2 : Nat) : Bool :=
  if b == 0xF0 then decide (0x90 ≤ b2) && decide (b2 < 0xC0)
  else if b == 0xF4 then decide (0x80 ≤ b2) && decide (b2 < 0x90)
  else contByte b2

/-- Embedding of String from_utf8_lossy: decode UTF-8, replacing each
maximal invalid subpart by the replacement character and continuing;
the decoder is total, so malformed bytes never cause a rejection. -/
def decodeLossy : List Nat → List Char
  | [] => []
  | b :: rest =>
    if b < 0x80 then Char.ofNat b :: decodeLossy rest
    else if b < 0xC2 then replChar :: decodeLossy rest
    else if b < 0xE0 then
      match rest with
      | [] => [replChar]
      | b2 :: rest2 =>
        if contByte b2 then
          Char.ofNat ((b - 0xC0) * 0x40 + (b2 - 0x80)) :: decodeLossy rest2
        else replChar :: decodeLossy (b2 :: rest2)
    else if b < 0xF0 then
      match rest with
      | [] => [replChar]
      | b2 :: rest2 =>
        if snd3ok b b2 then
          match rest2 with
          | [] => [replChar]
          | b3 :: rest3 =>
            if contByte b3 then
              Char.ofNat ((b - 0xE0) * 0x1000 + (b2 - 0x80) * 0x40 + (b3 - 0x80)) ::
                decodeLossy rest3
            else replChar :: decodeLossy (b3 :: rest3)
        else replChar :: decodeLossy (b2 :: rest2)
    else if b < 0xF5 then
      match rest with
      | [] => [replChar]
      | b2 :: rest2 =>
        if snd4ok b b2 then
          match rest2 with
          | [] => [replChar]
          | b3 :: rest3 =>
            if contByte b3 then
              match rest3 with
              | [] => [replChar]
              | b4 :: rest4 =>
                if contByte b4 then
                  Char.ofNat ((b - 0xF0) * 0x40000 + (b2 - 0x80) * 0x1000 +
                      (b3 - 0x80) * 0x40 + (b4 - 0x80)) :: decodeLossy rest4
                else replChar :: decodeLossy (b4 :: rest4)
            else replChar :: decodeLossy (b3 :: rest3)
        else replChar :: decodeLossy (b2 :: rest2)
    else replChar :: decodeLossy rest

/-- Size of the read buffer in handle_connection (let mut buffer holds
1024 bytes). -/
def bufferSize : Nat := 1024

/-- Embedding of src lines 76 to 78: the connection is a sequence of
arriving byte chunks; one read fills the 1024-byte buffer from the first
chunk, and the raw request is the lossy decoding of those bytes only. -/
def requestOfStream (stream : List (List Nat)) : List Char :=
  decodeLossy ((stream.headD []).take bufferSize)

/-- The pipeline applied to the bytes actually delivered by the stream. -/
def handleConnectionFromStream (c : TrustCache) (now : Nat) (kernelUp : Bool)
    (stream : List (List Nat)) : PipelineResult :=
  handle_connection c now kernelUp (requestOfStream stream)

/-- One attempt of the operating system to open the TCP connection that
check_kernel_health awaits: it resolves after some elapsed time, with
success or failure. -/
structure ConnectAttempt where
  elapsed : Nat
  ok : Bool

/-- Embedding of check_kernel_health from src lines 48 to 53: the probe
awaits TcpStream connect on the configured kernel address and maps Ok to
true and Err to false; no timeout combinator is wrapped around the
await, so the probe resolves exactly when the connect does. -/
def check_kernel_health (a : ConnectAttempt) : Bool := a.ok

/-- Time at which the probe resolves: because src sets no timeout, this
is the elapsed time of the connect attempt itself, uncapped. -/
def probeElapsed (a : ConnectAttempt) : Nat := a.elapsed

/-- The explicit timeout configured on the probe in src: none exists
(the connect call at line 49 is bare, with no timeout wrapper). -/
def healthProbeTimeoutConfig : Option Nat := none

/-! Helper lemmas about the cache. -/

lemma cacheGet_eq_none (c : TrustCache) (now : Nat) (token : List Char)
    (h : ∀ e ∈ c, e.token ≠ token) : cacheGet c now token = none := by
  unfold cacheGet
  have hf : c.find? (fun e => e.token == token) = none := by
    rw [List.find?_eq_none]
    intro e he
    simpa using h e he
  rw [hf]

lemma cacheGet_some_fresh (c : TrustCache) (now : Nat) (token : List Char) (v : Bool)
    (h : cacheGet c now token = some v) :
    ∃ e, e ∈ c ∧ e.token = token ∧ e.value = v ∧ now < e.insertedAt + cacheTTL := by
  unfold cacheGet at h
  cases hf : c.find? (fun e => e.token == token) with
  | none => rw [hf] at h; exact absurd h (by simp)
  | some e =>
    rw [hf] at h
    by_cases ht : now < e.insertedAt + cacheTTL
    · have h2 : e.value = v := by simpa [ht] using h
      refine ⟨e, List.mem_of_find?_eq_some hf, ?_, h2, ht⟩
      simpa using List.find?_some hf
    · exact absurd h (by simp [ht])

lemma cacheGet_insert_fresh (c : TrustCache) (now now2 : Nat) (token : List Char)
    (v : Bool) (h : now2 < now + cacheTTL) :
    cacheGet (cacheInsert c now token v) now2 token = some v := by
  unfold cacheGet cacheInsert
  rw [List.find?_cons_of_pos _ (by simp)]
  simp [h]

lemma cacheInsert_length_le (c : TrustCache) (now : Nat) (token : List Char)
    (v : Bool) : (cacheInsert c now token v).length ≤ cacheCapacity := by
  have h1 : ∀ (l : List CacheEntry),
      (if l.length < cacheCapacity then l else l.take (cacheCapacity - 1)).length + 1 ≤
        cacheCapacity := by
    intro l
    split
    · next h => simp only [cacheCapacity] at *; omega
    · next h =>
      have := List.length_take_le (cacheCapacity - 1) l
      simp only [cacheCapacity] at *; omega
  simpa [cacheInsert] using h1 (c.filter (fun e =>
    decide (now < e.insertedAt + cacheTTL) && !(e.token == token)))

lemma cacheInsert_mem (c : TrustCache) (now : Nat) (token : List Char) (v : Bool) :
    ∀ e ∈ cacheInsert c now token v, e ∈ c ∨ e = ⟨token, v, now⟩ := by
  intro e he
  simp only [cacheInsert, List.mem_cons] at he
  rcases he with he | he
  · right; exact he
  · left
    have hsub : (if (c.filter (fun e =>
        decide (now < e.insertedAt + cacheTTL) && !(e.token == token))).length < cacheCapacity
        then c.filter (fun e => decide (now < e.insertedAt + cacheTTL) && !(e.token == token))
        else (c.filter (fun e =>
          decide (now < e.insertedAt + cacheTTL) && !(e.token == token))).take
          (cacheCapacity - 1)) ⊆
        c.filter (fun e => decide (now < e.insertedAt + cacheTTL) && !(e.token == token)) := by
      split
      · exact fun x hx => hx
      · exact List.take_subset _ _
    exact List.mem_of_mem_filter (hsub he)

/-! Claim theorems. -/

/-- Claim C1: starting from a cache with no entry for the token, the
zero-trust verification returns true exactly when the token starts with
the valid-credential lead string. -/
theorem verify_slow_path_iff (c : TrustCache) (now : Nat) (token : List Char)
    (h : ∀ e ∈ c, e.token ≠ token) :
    (verify_zero_trust_token c now token).result = true ↔
      strStartsWith token authSygmaValid = true := by
  have hn := cacheGet_eq_none c now token h
  unfold verify_zero_trust_token
  rw [hn]
  cases hs : strStartsWith token authSygmaValid <;> simp [hs]

theorem verify_slow_path_iff_witness :
    (∀ e ∈ ([] : TrustCache), e.token ≠ "AUTH_SYGMA_VALID_W".toList) ∧
    ((verify_zero_trust_token [] 0 "AUTH_SYGMA_VALID_W".toList).result = true ↔
      strStartsWith "AUTH_SYGMA_VALID_W".toList authSygmaValid = true) :=
  ⟨by simp, verify_slow_path_iff [] 0 _ (by simp)⟩

/-- Claim C4: on every cache state reachable in a run (all resident
entries hold true and a token carrying the valid lead), a verification
call that returns false leaves the cache unchanged and the cache holds
no entry for that token. -/
theorem verify_false_cache_unchanged (c : TrustCache) (now : Nat) (token : List Char)
    (hwf : ∀ e ∈ c, e.value = true ∧ strStartsWith e.token authSygmaValid = true)
    (hf : (verify_zero_trust_token c now token).result = false) :
    (verify_zero_trust_token c now token).cache = c ∧ ∀ e ∈ c, e.token ≠ token := by
  cases hg : cacheGet c now token with
  | some v =>
    exfalso
    obtain ⟨e, hec, _, hev, _⟩ := cacheGet_some_fresh c now token v hg
    have hv : v = true := by rw [← hev]; exact (hwf e hec).1
    unfold verify_zero_trust_token at hf
    rw [hg] at hf
    simp [hv] at hf
  | none =>
    unfold verify_zero_trust_token at hf ⊢
    rw [hg] at hf ⊢
    cases hs : strStartsWith token authSygmaValid with
    | true => rw [hs] at hf; simp at hf
    | false =>
      constructor
      · simp [hs]
      · intro e he heq
        have h2 := (hwf e he).2
        rw [heq, hs] at h2
        exact Bool.noConfusion h2

theorem verify_false_cache_unchanged_witness :
    (∀ e ∈ ([] : TrustCache), e.value = true ∧
      strStartsWith e.token authSygmaValid = true) ∧
    (verify_zero_trust_token [] 0 "FRAUD_ATTEMPT_1".toList).result = false ∧
    ((verify_zero_trust_token [] 0 "FRAUD_ATTEMPT_1".toList).cache = [] ∧
      ∀ e ∈ ([] : TrustCache), e.token ≠ "FRAUD_ATTEMPT_1".toList) :=
  ⟨by simp, by decide, verify_false_cache_unchanged [] 0 _ (by simp) (by decide)⟩

/-- Claim C6: two consecutive verification calls on the same valid token
(the second within the TTL of the first) both return true, and the
second call runs the slow path zero times, being answered entirely by
the cache hit. -/
theorem verify_second_call_cache_hit (c : TrustCache) (now1 now2 : Nat)
    (token : List Char)
    (hv : strStartsWith token authSygmaValid = true)
    (hm : ∀ e ∈ c, e.token ≠ token)
    (ht : now2 < now1 + cacheTTL) :
    (verify_zero_trust_token c now1 token).result = true ∧
    (verify_zero_trust_token (verify_zero_trust_token c now1 token).cache
      now2 token).result = true ∧
    (verify_zero_trust_token (verify_zero_trust_token c now1 token).cache
      now2 token).slowPathRuns = 0 := by
  have hn := cacheGet_eq_none c now1 token hm
  have h1 : verify_zero_trust_token c now1 token =
      ⟨true, cacheInsert c now1 token true, 1⟩ := by
    unfold verify_zero_trust_token
    rw [hn]
    simp [hv]
  have h2 : cacheGet (cacheInsert c now1 token true) now2 token = some true :=
    cacheGet_insert_fresh c now1 now2 token true ht
  have h3 : verify_zero_trust_token (cacheInsert c now1 token true) now2 token =
      ⟨true, cacheInsert c now1 token true, 0⟩ := by
    unfold verify_zero_trust_token
    rw [h2]
  rw [h1]
  exact ⟨rfl, by rw [h3], by rw [h3]⟩

theorem verify_second_call_cache_hit_witness :
    strStartsWith "AUTH_SYGMA_VALID_1".toList authSygmaValid = true ∧
    (∀ e ∈ ([] : TrustCache), e.token ≠ "AUTH_SYGMA_VALID_1".toList) ∧
    1 < 0 + cacheTTL ∧
    ((verify_zero_trust_token [] 0 "AUTH_SYGMA_VALID_1".toList).result = true ∧
     (verify_zero_trust_token (verify_zero_trust_token [] 0
       "AUTH_SYGMA_VALID_1".toList).cache 1 "AUTH_SYGMA_VALID_1".toList).result = true ∧
     (verify_zero_trust_token (verify_zero_trust_token [] 0
       "AUTH_SYGMA_VALID_1".toList).cache 1
       "AUTH_SYGMA_VALID_1".toList).slowPathRuns = 0) :=
  ⟨by decide, by simp, by decide,
   verify_second_call_cache_hit [] 0 1 _ (by decide) (by simp) (by decide)⟩

/-- Claim C9: every value the verifier ever stores in the cache is true,
so on a cache whose entries all hold true a hit can only return true,
and a false outcome can only come from the slow path, which then ran
exactly once. -/
theorem cache_values_always_true (c : TrustCache) (now : Nat) (token : List Char)
    (v : Bool) (hall : ∀ e ∈ c, e.value = true) :
    (∀ e ∈ (verify_zero_trust_token c now token).cache, e ∈ c ∨ e.value = true) ∧
    (cacheGet c now token = some v → v = true) ∧
    ((verify_zero_trust_token c now token).result = false →
      (verify_zero_trust_token c now token).slowPathRuns = 1) := by
  refine ⟨?_, ?_, ?_⟩
  · intro e he
    unfold verify_zero_trust_token at he
    cases hg : cacheGet c now token with
    | some w => rw [hg] at he; exact Or.inl he
    | none =>
      rw [hg] at he
      cases hs : strStartsWith token authSygmaValid with
      | true =>
        rw [hs] at he
        simp only [if_pos rfl] at he
        rcases cacheInsert_mem c now token true e he with h | h
        · exact Or.inl h
        · right; rw [h]
      | false =>
        rw [hs] at he
        simp only [Bool.false_eq_true, if_neg] at he
        exact Or.inl he
  · intro hg
    obtain ⟨e, hec, _, hev, _⟩ := cacheGet_some_fresh c now token v hg
    rw [← hev]; exact hall e hec
  · intro hf
    unfold verify_zero_trust_token at hf ⊢
    cases hg : cacheGet c now token with
    | some w =>
      rw [hg] at hf
      have hw : w = true := by
        obtain ⟨e, hec, _, hev, _⟩ := cacheGet_some_fresh c now token w hg
        rw [← hev]; exact hall e hec
      simp [hw] at hf
    | none =>
      cases hs : strStartsWith token authSygmaValid <;> simp [hs]

theorem cache_values_always_true_witness :
    (∀ e ∈ ([CacheEntry.mk "AUTH_SYGMA_VALID_A".toList true 0] : TrustCache),
      e.value = true) ∧
    ((∀ e ∈ (verify_zero_trust_token [CacheEntry.mk "AUTH_SYGMA_VALID_A".toList true 0]
        1 "AUTH_SYGMA_VALID_A".toList).cache,
        e ∈ [CacheEntry.mk "AUTH_SYGMA_VALID_A".toList true 0] ∨ e.value = true) ∧
     (cacheGet [CacheEntry.mk "AUTH_SYGMA_VALID_A".toList true 0] 1
        "AUTH_SYGMA_VALID_A".toList = some true → true = true) ∧
     ((verify_zero_trust_token [CacheEntry.mk "AUTH_SYGMA_VALID_A".toList true 0] 1
        "AUTH_SYGMA_VALID_A".toList).result = false →
      (verify_zero_trust_token [CacheEntry.mk "AUTH_SYGMA_VALID_A".toList true 0] 1
        "AUTH_SYGMA_VALID_A".toList).slowPathRuns = 1)) :=
  ⟨by simp, cache_values_always_true _ 1 _ true (by simp)⟩

/-- Claim C8: across every history of get and insert operations starting
from the empty cache the resident set never exceeds the configured
capacity, and a lookup hit always comes from an entry younger than the
configured TTL. -/
theorem trust_cache_ttl_capacity (ops : List CacheOp) (c : TrustCache)
    (now : Nat) (tok : List Char) (v : Bool)
    (hget : cacheGet c now tok = some v) :
    (runOps ops).length ≤ cacheCapacity ∧
    ∃ e, e ∈ c ∧ e.token = tok ∧ e.value = v ∧ now < e.insertedAt + cacheTTL := by
  constructor
  · have hfold : ∀ (l : List CacheOp) (c0 : TrustCache), c0.length ≤ cacheCapacity →
        (l.foldl applyOp c0).length ≤ cacheCapacity := by
      intro l
      induction l with
      | nil => intro c0 h; simpa using h
      | cons op t ih =>
        intro c0 h
        simp only [List.foldl_cons]
        apply ih
        cases op with
        | get _ _ => simpa [applyOp] using h
        | insert n tk vl => simpa [applyOp] using cacheInsert_length_le c0 n tk vl
    simpa [runOps] using hfold ops [] (by simp [cacheCapacity])
  · exact cacheGet_some_fresh c now tok v hget

theorem trust_cache_ttl_capacity_witness :
    cacheGet [CacheEntry.mk "AUTH_SYGMA_VALID_B".toList true 0] 10
      "AUTH_SYGMA_VALID_B".toList = some true ∧
    ((runOps [CacheOp.insert 0 "AUTH_SYGMA_VALID_B".toList true]).length ≤
      cacheCapacity ∧
     ∃ e, e ∈ [CacheEntry.mk "AUTH_SYGMA_VALID_B".toList true 0] ∧
       e.token = "AUTH_SYGMA_VALID_B".toList ∧ e.value = true ∧
       10 < e.insertedAt + cacheTTL) :=
  ⟨by decide, trust_cache_ttl_capacity _ _ 10 _ true (by decide)⟩

/-- Claim C7: a request whose split on the pipe yields fewer than two
fields gets exactly the 400 response, the zero-trust check and the
health probe are never invoked, and the cache is unchanged. -/
theorem malformed_request_short_circuit (c : TrustCache) (now : Nat)
    (kernelUp : Bool) (request : List Char)
    (h : (splitPipe request).length < 2) :
    handle_connection c now kernelUp request = ⟨resp400, c, false, false, 0⟩ := by
  unfold handle_connection
  simp [h]

theorem malformed_request_short_circuit_witness :
    (splitPipe "justastring".toList).length < 2 ∧
    handle_connection [] 0 true "justastring".toList =
      ⟨resp400, [], false, false, 0⟩ :=
  ⟨by decide, malformed_request_short_circuit [] 0 true _ (by decide)⟩

/-- Claim C5: within one connection the credential check runs before the
health probe; whenever the token of a well-formed request fails
verification, the pipeline does not invoke the downstream probe. -/
theorem rejected_token_no_health_probe (c : TrustCache) (now : Nat)
    (kernelUp : Bool) (request : List Char)
    (hlen : 2 ≤ (splitPipe request).length)
    (hfail : (verify_zero_trust_token c now (authTokenOf request)).result = false) :
    (handle_connection c now kernelUp request).healthProbeInvoked = false := by
  unfold handle_connection
  have h2 : ¬ (splitPipe request).length < 2 := by omega
  rw [if_neg h2, if_pos hfail]

theorem rejected_token_no_health_probe_witness :
    2 ≤ (splitPipe "FRAUD_ATTEMPT_2|X".toList).length ∧
    (verify_zero_trust_token [] 0
      (authTokenOf "FRAUD_ATTEMPT_2|X".toList)).result = false ∧
    (handle_connection [] 0 true "FRAUD_ATTEMPT_2|X".toList).healthProbeInvoked =
      false :=
  ⟨by decide, by decide,
   rejected_token_no_health_probe [] 0 true _ (by decide) (by decide)⟩

/-- Claim C2: in the fault-free model every pipeline run produces exactly
one response and that response is one of the four fixed templates, and
when parsing, authentication and the health check all succeed it is
exactly the accepted template with the parsed payload field substituted
unmodified. -/
theorem pipeline_response_templates (c : TrustCache) (now : Nat)
    (kernelUp : Bool) (request : List Char) :
    ((handle_connection c now kernelUp request).response = resp400 ∨
     (handle_connection c now kernelUp request).response = resp403 ∨
     (handle_connection c now kernelUp request).response = resp503 ∨
     ∃ p, (handle_connection c now kernelUp request).response = resp200 p) ∧
    (2 ≤ (splitPipe request).length →
      (verify_zero_trust_token c now (authTokenOf request)).result = true →
      kernelUp = true →
      (handle_connection c now kernelUp request).response =
        resp200 (payloadOf request)) := by
  constructor
  · unfold handle_connection
    split_ifs
    · exact Or.inl rfl
    · exact Or.inr (Or.inl rfl)
    · exact Or.inr (Or.inr (Or.inl rfl))
    · exact Or.inr (Or.inr (Or.inr ⟨_, rfl⟩))
  · intro hlen hres hup
    unfold handle_connection
    have h1 : ¬ (splitPipe request).length < 2 := by omega
    rw [if_neg h1, if_neg (by simp [hres]), if_neg (by simp [hup])]

theorem pipeline_response_templates_witness :
    2 ≤ (splitPipe "AUTH_SYGMA_VALID_2|PAY42".toList).length ∧
    (verify_zero_trust_token [] 0
      (authTokenOf "AUTH_SYGMA_VALID_2|PAY42".toList)).result = true ∧
    (handle_connection [] 0 true "AUTH_SYGMA_VALID_2|PAY42".toList).response =
      resp200 (payloadOf "AUTH_SYGMA_VALID_2|PAY42".toList) :=
  ⟨by decide, by decide,
   (pipeline_response_templates [] 0 true "AUTH_SYGMA_VALID_2|PAY42".toList).2
     (by decide) (by decide) rfl⟩

/-- Claim C10: the raw request comes from a single read into the
1024-byte buffer, so the parsed input is the lossy decoding of at most
1024 bytes of the first arriving chunk, the pipeline outcome is
independent of any later chunks, and a malformed byte is decoded to the
replacement character instead of causing a rejection. -/
theorem single_read_lossy_decode (c : TrustCache) (now : Nat) (kernelUp : Bool)
    (first : List Nat) (later later2 : List (List Nat)) (b : Nat)
    (rest : List Nat) (hb : 0xF5 ≤ b) :
    requestOfStream (first :: later) = decodeLossy (first.take bufferSize) ∧
    requestOfStream (first :: later) = requestOfStream (first :: later2) ∧
    (first.take bufferSize).length ≤ bufferSize ∧
    handleConnectionFromStream c now kernelUp (first :: later) =
      handleConnectionFromStream c now kernelUp [first] ∧
    decodeLossy (b :: rest) = replChar :: decodeLossy rest := by
  refine ⟨rfl, rfl, List.length_take_le _ _, rfl, ?_⟩
  have h1 : ¬ b < 0x80 := by omega
  have h2 : ¬ b < 0xC2 := by omega
  have h3 : ¬ b < 0xE0 := by omega
  have h4 : ¬ b < 0xF0 := by omega
  have h5 : ¬ b < 0xF5 := by omega
  rw [decodeLossy.eq_def]
  simp only [if_neg h1, if_neg h2, if_neg h3, if_neg h4, if_neg h5]

theorem single_read_lossy_decode_witness :
    0xF5 ≤ 0xFF ∧
    (requestOfStream ([0x41, 0xFF] :: [[0x42]]) =
      decodeLossy ([0x41, 0xFF].take bufferSize) ∧
     requestOfStream ([0x41, 0xFF] :: [[0x42]]) =
      requestOfStream ([0x41, 0xFF] :: []) ∧
     ([0x41, 0xFF].take bufferSize).length ≤ bufferSize ∧
     handleConnectionFromStream [] 0 true ([0x41, 0xFF] :: [[0x42]]) =
      handleConnectionFromStream [] 0 true [[0x41, 0xFF]] ∧
     decodeLossy (0xFF :: []) = replChar :: decodeLossy []) :=
  ⟨by decide, single_read_lossy_decode [] 0 true [0x41, 0xFF] [[0x42]] [] 0xFF []
    (by decide)⟩

/-- Claim C3 records a divergence of the code from the spec: the health
probe awaits the TCP connect with no timeout combinator, so no explicit
finite timeout is configured, and for every candidate finite bound there
is a connect attempt on which the probe takes longer while still
resolving to the boolean mapped from the connect outcome. -/
theorem health_probe_no_finite_timeout :
    healthProbeTimeoutConfig = none ∧
    ∀ B : Nat, ∃ a : ConnectAttempt,
      B < probeElapsed a ∧ check_kernel_health a = false :=
  ⟨rfl, fun B => ⟨⟨B + 1, false⟩, Nat.lt_succ_self B, rfl⟩⟩

end Sygma
